import Mathlib

/-!
# MIDI-Monitor: verification of the ingestion-decode-broadcast core

A shallow embedding of the Rust backend of the MIDI-Monitor repository
(`src-tauri/src/backend/mod.rs` and its callers), together with proofs of the
specification's claims about it.

* `MidiMessage` and `from_raw_message` embed the wire event struct and the
  frame decoder.
* `send_task_forwarded` embeds the outbound duty of `handle_socket` (the
  `while let Ok(..) = midi_receiver.recv().await` loop).
* `setup_midi_input` / `start_midi_server` embed producer selection at startup.
* A small-step session model embeds the two spawned tasks of `handle_socket`
  joined by `tokio::select!` (dropping a `JoinHandle` detaches the task).
* `simulate_midi_events` embeds the synthetic producer loop.
* `render_midi_message` / `parse_midi_message` embed the `serde_json`
  serialization of the wire struct and its parse on the client side.
-/

/-- The wire event struct, mirroring the Rust `MidiMessage` with
`message_type: String` and four `Option<u8>` fields (bytes embedded as `Nat`). -/
structure MidiMessage where
  message_type : String
  note : Option Nat
  velocity : Option Nat
  control : Option Nat
  value : Option Nat
deriving DecidableEq, Repr

/-- The string `"Unknown(<code>)"` produced by `format!("Unknown({})", message_type)`
for an unrecognized status nibble. -/
def unknownTag (code : Nat) : String :=
  "Unknown(" ++ toString code ++ ")"

/-- Embedding of `MidiMessage::from_raw_message`: decode one raw frame
(list of bytes) into an event, or `none`. Mirrors the Rust match on
`status & 0xF0` with the `len() >= 3` guards and the velocity-0 re-tag. -/
def from_raw_message (message : List Nat) : Option MidiMessage :=
  match message with
  | [] => none
  | b0 :: tail =>
    let message_type := b0 &&& 0xF0
    if message_type = 0x90 then
      match tail with
      | b1 :: b2 :: _ =>
        if b2 = 0 then
          some ⟨"NoteOff", some b1, some b2, none, none⟩
        else
          some ⟨"NoteOn", some b1, some b2, none, none⟩
      | _ => none
    else if message_type = 0x80 then
      match tail with
      | b1 :: b2 :: _ => some ⟨"NoteOff", some b1, some b2, none, none⟩
      | _ => none
    else if message_type = 0xB0 then
      match tail with
      | b1 :: b2 :: _ => some ⟨"ControlChange", none, none, some b1, some b2⟩
      | _ => none
    else
      some ⟨unknownTag message_type, none, none, none, none⟩

/-- One result of `broadcast::Receiver::recv().await` on the bus, mirroring
`Result<MidiMessage, RecvError>` with `RecvError::{Lagged, Closed}`. -/
inductive RecvResult where
  | ok (m : MidiMessage)
  | lagged (n : Nat)
  | closed
deriving DecidableEq, Repr

/-- Embedding of the outbound duty of `handle_socket` (its `send_task`):
`while let Ok(midi_message) = midi_receiver.recv().await { ... }` applied to a
list of successive `recv` results. Returns the messages forwarded to the
client (every send is assumed to succeed; `serde_json::to_string` on this
struct always succeeds). The `while let Ok` pattern exits the loop on any
`Err`, including `Lagged`. -/
def send_task_forwarded : List RecvResult → List MidiMessage
  | [] => []
  | RecvResult.ok m :: rest => m :: send_task_forwarded rest
  | RecvResult.lagged _ :: _ => []
  | RecvResult.closed :: _ => []

/-- The outcomes of the hardware-enumeration and connection steps performed by
`setup_midi_input`: `MidiInput::new` can fail, the port list can be empty,
`port_name` can fail, and `connect` can fail or succeed. -/
inductive MidiEnv where
  | initFails
  | noPorts
  | portNameFails
  | connectFails
  | connectOk
deriving DecidableEq, Repr

/-- Embedding of `setup_midi_input`: `Ok(None)` when no ports are found,
`Ok(Some(connection))` on a successful connect, and `Err` when any of
`MidiInput::new`, `port_name`, or `connect` fails (each is followed by `?`).
The connection itself is embedded as `Unit`. -/
def setup_midi_input : MidiEnv → Except Unit (Option Unit)
  | MidiEnv.initFails => Except.error ()
  | MidiEnv.noPorts => Except.ok none
  | MidiEnv.portNameFails => Except.error ()
  | MidiEnv.connectFails => Except.error ()
  | MidiEnv.connectOk => Except.ok (some ())

/-- Which producer feeds the bus. -/
inductive Producer where
  | hardware
  | synthetic
deriving DecidableEq, Repr

/-- Embedding of producer selection in `start_midi_server`:
`let _midi_connection = setup_midi_input(state.clone())?;` followed by
`if _midi_connection.is_none() { tokio::spawn(simulate_midi_events(..)) }`.
The `?` propagates a setup error out of `start_midi_server` before the
simulation branch is reached. -/
def start_midi_server (env : MidiEnv) : Except Unit Producer :=
  match setup_midi_input env with
  | Except.error e => Except.error e
  | Except.ok conn => if conn.isNone then Except.ok Producer.synthetic else Except.ok Producer.hardware

/-- Embedding of the caller in `lib.rs` (`run`): `start_midi_server`'s error is
caught and logged (`if let Err(e) = ... { eprintln!(..) }`), so the process
stays alive; `some p` means producer `p` is running, `none` means no producer
was started. -/
def run_backend (env : MidiEnv) : Option Producer :=
  match start_midi_server env with
  | Except.ok p => some p
  | Except.error _ => none

/-- One inbound WebSocket read result in `handle_socket`'s `recv_task`:
`receiver.next().await` yields a text frame, a close frame, an error, some
other frame kind, or (list exhausted) end of stream. -/
inductive SockMsg where
  | text
  | close
  | err
  | other
deriving DecidableEq, Repr

/-- State of the session model for `handle_socket`: the two spawned tasks with
their remaining inputs, completion flags, whether the `tokio::select!` in
`handle_socket` has returned, and the log of messages whose send was
attempted by the outbound task. -/
structure SessionState where
  busEvents : List RecvResult
  sockMsgs : List SockMsg
  sendDone : Bool
  recvDone : Bool
  selectReturned : Bool
  sendAttempts : List MidiMessage
deriving DecidableEq, Repr

/-- Scheduler labels: let the send task run one loop iteration, let the recv
task run one, or let `handle_socket`'s `select!` observe a completion. -/
inductive Lbl where
  | send
  | recv
  | select
deriving DecidableEq, Repr

/-- One scheduler step of the session model. `tokio::spawn` detaches both
tasks from `handle_socket`: dropping a `JoinHandle` (which is what
`tokio::select!` does to the loser when the winner completes) does **not**
abort the task, so `Lbl.send` and `Lbl.recv` stay enabled after
`selectReturned` is set. A send is attempted (recorded in `sendAttempts`)
for every `Ok` recv result; sends are assumed to succeed. A step that is not
enabled leaves the state unchanged. -/
def session_step (s : SessionState) : Lbl → SessionState
  | Lbl.send =>
    if s.sendDone then s
    else
      match s.busEvents with
      | [] => s
      | RecvResult.ok m :: rest =>
        { s with busEvents := rest, sendAttempts := s.sendAttempts ++ [m] }
      | RecvResult.lagged _ :: rest =>
        { s with busEvents := rest, sendDone := true }
      | RecvResult.closed :: rest =>
        { s with busEvents := rest, sendDone := true }
  | Lbl.recv =>
    if s.recvDone then s
    else
      match s.sockMsgs with
      | [] => { s with recvDone := true }
      | SockMsg.text :: rest => { s with sockMsgs := rest }
      | SockMsg.close :: rest => { s with sockMsgs := rest, recvDone := true }
      | SockMsg.err :: rest => { s with sockMsgs := rest, recvDone := true }
      | SockMsg.other :: rest => { s with sockMsgs := rest }
  | Lbl.select =>
    if s.selectReturned then s
    else if s.sendDone || s.recvDone then { s with selectReturned := true }
    else s

/-- Run the session model under a schedule. -/
def session_run (s : SessionState) : List Lbl → SessionState
  | [] => s
  | l :: ls => session_run (session_step s l) ls

/-- Initial session state for given bus events and inbound socket messages. -/
def session_init (bus : List RecvResult) (sock : List SockMsg) : SessionState :=
  ⟨bus, sock, false, false, false, []⟩

/-- The fixed scale of the synthetic producer (`c_major_scale` in
`simulate_midi_events`). -/
def c_major_scale : List Nat := [60, 62, 64, 65, 67, 69, 71, 72]

/-- The Note On message published by `simulate_midi_events` for a note. -/
def sim_note_on (note : Nat) : MidiMessage :=
  ⟨"NoteOn", some note, some 64, none, none⟩

/-- The Note Off message published by `simulate_midi_events` for a note. -/
def sim_note_off (note : Nat) : MidiMessage :=
  ⟨"NoteOff", some note, some 0, none, none⟩

/-- Embedding of the loop body of `simulate_midi_events`, unrolled for
`iters` iterations starting at loop counter `current_note`: each iteration
publishes `NoteOn(scale[current_note % 8], 64)` then
`NoteOff(scale[current_note % 8], 0)` and increments `current_note`.
The `sleep` calls publish nothing and are elided. -/
def simulate_midi_events : Nat → Nat → List MidiMessage
  | _, 0 => []
  | current_note, iters + 1 =>
    let note := c_major_scale.getD (current_note % c_major_scale.length) 0
    sim_note_on note :: sim_note_off note :: simulate_midi_events (current_note + 1) iters

/-! ## The wire JSON schema: `serde_json` serialization of `MidiMessage`

`handle_socket` sends `serde_json::to_string(&midi_message)` as a text frame;
the frontend parses it with `serde_json::from_str::<MidiMessage>` into the
identical struct. The serializer below reproduces `serde_json`'s compact
output for this struct exactly (field order = declaration order, `null` for
`None`, decimal integers, and `serde_json`'s string escaping: `\"`, `\\`,
`\b`, `\t`, `\n`, `\f`, `\r`, and `\u00XX` with lowercase hex for the other
control characters). The parser models `from_str` for the flat
string/number/null JSON objects this schema uses: any field order, unknown
fields ignored, duplicate fields rejected, `message_type` required, missing
`Option` fields defaulting to `None`, `u8` range checked, and no trailing
input. Text is embedded as `List Char`. -/

/-- The JSON values occurring in the wire schema. -/
inductive JVal where
  | jnull
  | jnum (n : Nat)
  | jstr (s : List Char)
deriving DecidableEq, Repr

/-- Lowercase hex digit character, as in `serde_json`'s escape table. -/
def hexDigitChar (n : Nat) : Char :=
  if n < 10 then Char.ofNat (48 + n) else Char.ofNat (87 + n)

/-- `serde_json` escaping of one character inside a JSON string. -/
def escapeChar (c : Char) : List Char :=
  if c = '"' then ['\\', '"']
  else if c = '\\' then ['\\', '\\']
  else if c = Char.ofNat 8 then ['\\', 'b']
  else if c = Char.ofNat 9 then ['\\', 't']
  else if c = Char.ofNat 10 then ['\\', 'n']
  else if c = Char.ofNat 12 then ['\\', 'f']
  else if c = Char.ofNat 13 then ['\\', 'r']
  else if c.toNat < 32 then
    ['\\', 'u', '0', '0', hexDigitChar (c.toNat / 16), hexDigitChar (c.toNat % 16)]
  else [c]

/-- Escape a character sequence. -/
def escapeChars : List Char → List Char
  | [] => []
  | c :: cs => escapeChar c ++ escapeChars cs

/-- Render a JSON string literal (quotes plus escaped body). -/
def renderJString (s : List Char) : List Char :=
  '"' :: (escapeChars s ++ ['"'])

/-- Render a natural number in decimal. -/
def renderNat (n : Nat) : List Char :=
  if n = 0 then ['0'] else (Nat.digits 10 n).reverse.map Nat.digitChar

/-- Render one JSON value. -/
def renderJVal : JVal → List Char
  | JVal.jnull => ['n', 'u', 'l', 'l']
  | JVal.jnum n => renderNat n
  | JVal.jstr s => renderJString s

/-- Render one object member `"key":value`. -/
def renderMember (k : List Char) (v : JVal) : List Char :=
  renderJString k ++ ':' :: renderJVal v

/-- The JSON value of an `Option<u8>` field. -/
def jOfOptU8 : Option Nat → JVal
  | none => JVal.jnull
  | some n => JVal.jnum n

/-- Render a non-empty member list, members separated by `,` and closed by
`}`. -/
def renderMembersList : List (List Char × JVal) → List Char
  | [] => ['}']
  | [(k, v)] => renderMember k v ++ ['}']
  | (k, v) :: rest => renderMember k v ++ ',' :: renderMembersList rest

/-- The five members of the wire object for a message, in `serde`'s field
declaration order. -/
def midiMembers (m : MidiMessage) : List (List Char × JVal) :=
  [("message_type".data, JVal.jstr m.message_type.data),
   ("note".data, jOfOptU8 m.note),
   ("velocity".data, jOfOptU8 m.velocity),
   ("control".data, jOfOptU8 m.control),
   ("value".data, jOfOptU8 m.value)]

/-- Embedding of `serde_json::to_string(&midi_message)`: the compact JSON
text of a `MidiMessage`, fields in declaration order. -/
def render_midi_message (m : MidiMessage) : List Char :=
  '{' :: renderMembersList (midiMembers m)

/-- Decimal digit value of a character, if any. -/
def digitVal (c : Char) : Option Nat :=
  if 48 ≤ c.toNat ∧ c.toNat ≤ 57 then some (c.toNat - 48) else none

/-- Does the input start with a decimal digit? (Used to state where the
greedy number parser stops.) -/
def startsWithDigit : List Char → Bool
  | [] => false
  | c :: _ => (digitVal c).isSome

/-- Hexadecimal digit value of a character, if any (JSON `\u` escapes accept
both cases). -/
def hexVal (c : Char) : Option Nat :=
  if 48 ≤ c.toNat ∧ c.toNat ≤ 57 then some (c.toNat - 48)
  else if 97 ≤ c.toNat ∧ c.toNat ≤ 102 then some (c.toNat - 87)
  else if 65 ≤ c.toNat ∧ c.toNat ≤ 70 then some (c.toNat - 55)
  else none

/-- Greedily read decimal digits (most significant first), returning their
values and the unconsumed tail. -/
def parseDigits : List Char → List Nat × List Char
  | [] => ([], [])
  | c :: cs =>
    match digitVal c with
    | some d =>
      let p := parseDigits cs
      (d :: p.1, p.2)
    | none => ([], c :: cs)

/-- Parse a decimal natural number off the front of the input. -/
def parseNat (cs : List Char) : Option (Nat × List Char) :=
  match parseDigits cs with
  | ([], _) => none
  | (ds, rest) => some (ds.foldl (fun a d => 10 * a + d) 0, rest)

/-- The character denoted by a single-character JSON escape. -/
def escCharOf (e : Char) : Option Char :=
  if e = '"' then some '"'
  else if e = '\\' then some '\\'
  else if e = '/' then some '/'
  else if e = 'b' then some (Char.ofNat 8)
  else if e = 'f' then some (Char.ofNat 12)
  else if e = 'n' then some (Char.ofNat 10)
  else if e = 'r' then some (Char.ofNat 13)
  else if e = 't' then some (Char.ofNat 9)
  else none

/-- Parse the body of a JSON string literal (after the opening quote) up to
and including the closing quote, unescaping as it goes. -/
def parseStringBody : List Char → Option (List Char × List Char)
  | [] => none
  | c :: cs =>
    if c = '"' then some ([], cs)
    else if c = '\\' then
      match cs with
      | [] => none
      | e :: cs2 =>
        if e = 'u' then
          match cs2 with
          | h1 :: h2 :: h3 :: h4 :: cs3 =>
            match hexVal h1, hexVal h2, hexVal h3, hexVal h4 with
            | some a, some b, some x, some y =>
              (parseStringBody cs3).map fun p =>
                (Char.ofNat (4096 * a + 256 * b + 16 * x + y) :: p.1, p.2)
            | _, _, _, _ => none
          | _ => none
        else
          match escCharOf e with
          | some ec => (parseStringBody cs2).map fun p => (ec :: p.1, p.2)
          | none => none
    else (parseStringBody cs).map fun p => (c :: p.1, p.2)

/-- Parse one JSON value of the wire schema (string, `null`, or number). -/
def parseJVal (cs : List Char) : Option (JVal × List Char) :=
  match cs with
  | [] => none
  | c :: cs1 =>
    if c = '"' then
      (parseStringBody cs1).map fun p => (JVal.jstr p.1, p.2)
    else if c = 'n' then
      match cs1 with
      | 'u' :: 'l' :: 'l' :: rest => some (JVal.jnull, rest)
      | _ => none
    else
      match parseNat (c :: cs1) with
      | some p => some (JVal.jnum p.1, p.2)
      | none => none

/-- Parse one object member `"key":value` followed by `,` (more members
follow: `true`) or `}` (object ends: `false`). -/
def parseMember (cs : List Char) : Option ((List Char × JVal) × List Char × Bool) :=
  match cs with
  | [] => none
  | c :: cs1 =>
    if c = '"' then
      match parseStringBody cs1 with
      | none => none
      | some (key, r1) =>
        match r1 with
        | [] => none
        | c2 :: r2 =>
          if c2 = ':' then
            match parseJVal r2 with
            | none => none
            | some (v, r3) =>
              match r3 with
              | [] => none
              | c3 :: r4 =>
                if c3 = ',' then some ((key, v), r4, true)
                else if c3 = '}' then some ((key, v), r4, false)
                else none
          else none
    else none

/-- Partial `MidiMessage` built while visiting object members, mirroring the
derived `Deserialize` visitor: each field is `none` until seen. -/
structure MidiAcc where
  mt : Option (List Char)
  note : Option (Option Nat)
  velocity : Option (Option Nat)
  control : Option (Option Nat)
  value : Option (Option Nat)
deriving DecidableEq, Repr

/-- Interpret a JSON value at an `Option<u8>` field: `null` is `None`, a
number in `0..=255` is `Some`, anything else is a type error. -/
def jToOptU8 : JVal → Option (Option Nat)
  | JVal.jnull => some none
  | JVal.jnum n => if n ≤ 255 then some (some n) else none
  | JVal.jstr _ => none

/-- Visit one member, as the derived `Deserialize` does: known keys fill
their field (duplicates are an error), unknown keys are ignored. -/
def visitMember (acc : MidiAcc) (key : List Char) (v : JVal) : Option MidiAcc :=
  if key = "message_type".data then
    match acc.mt with
    | some _ => none
    | none =>
      match v with
      | JVal.jstr s => some { acc with mt := some s }
      | _ => none
  else if key = "note".data then
    match acc.note with
    | some _ => none
    | none => (jToOptU8 v).map fun x => { acc with note := some x }
  else if key = "velocity".data then
    match acc.velocity with
    | some _ => none
    | none => (jToOptU8 v).map fun x => { acc with velocity := some x }
  else if key = "control".data then
    match acc.control with
    | some _ => none
    | none => (jToOptU8 v).map fun x => { acc with control := some x }
  else if key = "value".data then
    match acc.value with
    | some _ => none
    | none => (jToOptU8 v).map fun x => { acc with value := some x }
  else some acc

/-- Visit a list of members in order, threading the accumulator. -/
def visitFold : MidiAcc → List (List Char × JVal) → Option MidiAcc
  | acc, [] => some acc
  | acc, (k, v) :: rest =>
    match visitMember acc k v with
    | none => none
    | some acc2 => visitFold acc2 rest

/-- Parse the members of the object (after the opening brace), fuelled by an
upper bound on the member count; returns the filled accumulator and the tail
after the closing brace. -/
def parseMembers : Nat → MidiAcc → List Char → Option (MidiAcc × List Char)
  | 0, _, _ => none
  | fuel + 1, acc, cs =>
    match parseMember cs with
    | none => none
    | some (kv, rest, more) =>
      match visitMember acc kv.1 kv.2 with
      | none => none
      | some acc2 =>
        if more then parseMembers fuel acc2 rest else some (acc2, rest)

/-- Finish deserialization: `message_type` is required, `Option` fields
default to `None` when absent. -/
def finishAcc (acc : MidiAcc) : Option MidiMessage :=
  match acc.mt with
  | none => none
  | some s =>
    some ⟨String.mk s, acc.note.getD none, acc.velocity.getD none,
      acc.control.getD none, acc.value.getD none⟩

/-- Embedding of `serde_json::from_str::<MidiMessage>` on the wire schema:
an object of string/number/null members, no trailing input. -/
def parse_midi_message (cs : List Char) : Option MidiMessage :=
  match cs with
  | [] => none
  | c :: cs1 =>
    if c = '{' then
      match cs1 with
      | [] => none
      | d :: _ =>
        if d = '}' then none
        else
          match parseMembers cs1.length ⟨none, none, none, none, none⟩ cs1 with
          | some (acc, []) => finishAcc acc
          | _ => none
    else none

/-! ## Claims about the decoder -/

/-- C4: for every frame `[s, n, v, ...]` whose first byte's high nibble is
`0x9`, decode yields `NoteOn{note:n, velocity:v}` when `v > 0` and
`NoteOff{note:n, velocity:0}` when `v = 0`; and no decoded event is ever a
`NoteOn` with velocity 0. -/
theorem c4_note_on_decode :
    (∀ (s n v : Nat) (rest : List Nat), s &&& 0xF0 = 0x90 →
      (0 < v →
        from_raw_message (s :: n :: v :: rest) = some ⟨"NoteOn", some n, some v, none, none⟩) ∧
      (v = 0 →
        from_raw_message (s :: n :: v :: rest) = some ⟨"NoteOff", some n, some 0, none, none⟩)) ∧
    (∀ (frame : List Nat) (m : MidiMessage),
      from_raw_message frame = some m → m.message_type = "NoteOn" → m.velocity ≠ some 0) := by
  constructor
  · intro s n v rest hs
    constructor
    · intro hv
      simp only [from_raw_message, hs]
      simp [Nat.pos_iff_ne_zero.mp hv]
    · intro hv
      subst hv
      simp [from_raw_message, hs]
  · intro frame m hm hmt
    cases frame with
    | nil => simp [from_raw_message] at hm
    | cons b0 tail =>
      simp only [from_raw_message] at hm
      split at hm
      · split at hm
        · split at hm
          · cases hm
            simp at hmt
          · cases hm
            simp only [ne_eq, Option.some.injEq]
            omega
        · simp at hm
      · split at hm
        · split at hm
          · cases hm
            simp at hmt
          · simp at hm
        · split at hm
          · split at hm
            · cases hm
              simp at hmt
            · simp at hm
          · cases hm
            simp

/-- C5: frames with high nibble `0x8` decode to
`NoteOff{note:byte[1], velocity:byte[2]}` and frames with high nibble `0xB`
decode to `ControlChange{control:byte[1], value:byte[2]}`, with all unused
fields `None`. -/
theorem c5_note_off_cc_decode :
    ∀ (s n v : Nat) (rest : List Nat),
      (s &&& 0xF0 = 0x80 →
        from_raw_message (s :: n :: v :: rest) = some ⟨"NoteOff", some n, some v, none, none⟩) ∧
      (s &&& 0xF0 = 0xB0 →
        from_raw_message (s :: n :: v :: rest) = some ⟨"ControlChange", none, none, some n, some v⟩) := by
  intro s n v rest
  constructor
  · intro hs
    simp [from_raw_message, hs]
  · intro hs
    simp [from_raw_message, hs]

/-- C6: decode returns `none` exactly when the frame is empty, or the first
byte's high nibble is `0x8`, `0x9` or `0xB` and the frame is shorter than 3
bytes. -/
theorem c6_decode_none_iff :
    ∀ frame : List Nat, from_raw_message frame = none ↔
      (frame = [] ∨ (frame.length < 3 ∧
        (frame.headD 0 &&& 0xF0 = 0x80 ∨ frame.headD 0 &&& 0xF0 = 0x90 ∨
          frame.headD 0 &&& 0xF0 = 0xB0))) := by
  intro frame
  match frame with
  | [] => simp [from_raw_message]
  | [b0] =>
    simp only [from_raw_message, List.headD_cons, List.length_cons, List.length_nil]
    by_cases h9 : b0 &&& 0xF0 = 0x90 <;> by_cases h8 : b0 &&& 0xF0 = 0x80 <;>
      by_cases hb : b0 &&& 0xF0 = 0xB0 <;> simp [h9, h8, hb]
  | [b0, b1] =>
    simp only [from_raw_message, List.headD_cons, List.length_cons, List.length_nil]
    by_cases h9 : b0 &&& 0xF0 = 0x90 <;> by_cases h8 : b0 &&& 0xF0 = 0x80 <;>
      by_cases hb : b0 &&& 0xF0 = 0xB0 <;> simp [h9, h8, hb]
  | b0 :: b1 :: b2 :: rest =>
    simp only [from_raw_message, List.headD_cons, List.length_cons]
    by_cases h9 : b0 &&& 0xF0 = 0x90 <;> by_cases h8 : b0 &&& 0xF0 = 0x80 <;>
      by_cases hb : b0 &&& 0xF0 = 0xB0 <;>
        simp [h9, h8, hb] <;> (split <;> simp)

/-- C7: any non-empty frame whose first byte's high nibble is not `0x8`,
`0x9` or `0xB` decodes to `Unknown` carrying the status `byte[0] & 0xF0`
(never `none`), and the low nibble of the first byte never affects the
decode result. -/
theorem c7_unknown_decode :
    (∀ (b0 : Nat) (tail : List Nat),
      b0 &&& 0xF0 ≠ 0x80 → b0 &&& 0xF0 ≠ 0x90 → b0 &&& 0xF0 ≠ 0xB0 →
      from_raw_message (b0 :: tail) =
        some ⟨unknownTag (b0 &&& 0xF0), none, none, none, none⟩) ∧
    (∀ (a b : Nat) (tail : List Nat), a &&& 0xF0 = b &&& 0xF0 →
      from_raw_message (a :: tail) = from_raw_message (b :: tail)) := by
  constructor
  · intro b0 tail h8 h9 hb
    simp [from_raw_message, h8, h9, hb]
  · intro a b tail h
    simp only [from_raw_message]
    rw [h]

/-- C10: decode inspects at most the first three bytes: on frames longer
than 3 bytes the result equals decoding the first three bytes. -/
theorem c10_decode_take3 :
    ∀ frame : List Nat, 3 < frame.length →
      from_raw_message frame = from_raw_message (frame.take 3) := by
  intro frame hlen
  match frame with
  | b0 :: b1 :: b2 :: b3 :: rest =>
    simp [from_raw_message]

/-- Witness for C4 at concrete frames. -/
theorem c4_witness :
    from_raw_message [0x90, 60, 64] = some ⟨"NoteOn", some 60, some 64, none, none⟩ ∧
    from_raw_message [0x90, 60, 0] = some ⟨"NoteOff", some 60, some 0, none, none⟩ ∧
    (⟨"NoteOn", some 61, some 7, none, none⟩ : MidiMessage).velocity ≠ some 0 :=
  ⟨(c4_note_on_decode.1 0x90 60 64 [] (by decide)).1 (by decide),
   (c4_note_on_decode.1 0x90 60 0 [] (by decide)).2 rfl,
   c4_note_on_decode.2 [0x90, 61, 7] ⟨"NoteOn", some 61, some 7, none, none⟩ (by decide) rfl⟩

/-- Witness for C5 at concrete frames. -/
theorem c5_witness :
    from_raw_message [0x80, 60, 100] = some ⟨"NoteOff", some 60, some 100, none, none⟩ ∧
    from_raw_message [0xB0, 7, 99] = some ⟨"ControlChange", none, none, some 7, some 99⟩ :=
  ⟨(c5_note_off_cc_decode 0x80 60 100 []).1 (by decide),
   (c5_note_off_cc_decode 0xB0 7 99 []).2 (by decide)⟩

/-- Witness for C7 at concrete frames. -/
theorem c7_witness :
    from_raw_message [0xF8] = some ⟨unknownTag 0xF0, none, none, none, none⟩ ∧
    from_raw_message [0x95, 1, 2] = from_raw_message [0x9A, 1, 2] :=
  ⟨c7_unknown_decode.1 0xF8 [] (by decide) (by decide) (by decide),
   c7_unknown_decode.2 0x95 0x9A [1, 2] (by decide)⟩

/-- Witness for C10 at a concrete frame. -/
theorem c10_witness :
    from_raw_message [0x90, 60, 64, 99, 100] =
      from_raw_message ([0x90, 60, 64, 99, 100].take 3) :=
  c10_decode_take3 [0x90, 60, 64, 99, 100] (by decide)

/-! ## Claims about the session handler and producer selection -/

/-- Counterexample to C1: the outbound loop is
`while let Ok(..) = midi_receiver.recv().await`, so a `Lagged` result ends
the loop. The same event that is forwarded when no lag precedes it is *not*
forwarded when a `Lagged` result precedes it, contradicting "a `Lagged`
result never terminates the session or stops forwarding of later events". -/
theorem c1_counterexample :
    send_task_forwarded [RecvResult.ok (sim_note_on 60)] = [sim_note_on 60] ∧
    send_task_forwarded [RecvResult.lagged 1, RecvResult.ok (sim_note_on 60)] = [] := by
  exact ⟨rfl, rfl⟩

/-- C1 as amended: the outbound duty forwards events only up to the first
non-`Ok` recv result; a `Lagged` error terminates the loop and no event
after it is ever forwarded. -/
theorem c1_lagged_terminates_forwarding :
    ∀ (ms : List MidiMessage) (n : Nat) (rest : List RecvResult),
      send_task_forwarded (ms.map RecvResult.ok ++ RecvResult.lagged n :: rest) = ms := by
  intro ms n rest
  induction ms with
  | nil => rfl
  | cons m ms ih => simpa [send_task_forwarded] using ih

/-- Counterexample to C2: when the hardware connection attempt fails,
`setup_midi_input` returns `Err`, the `?` in `start_midi_server` propagates
it, and the synthetic producer is never started — the caller merely logs the
error, so no producer at all is active. -/
theorem c2_counterexample :
    run_backend MidiEnv.connectFails ≠ some Producer.synthetic ∧
    run_backend MidiEnv.connectFails = none := by
  exact ⟨by decide, rfl⟩

/-- C2 as amended: at most one producer is ever active (the selection
returns a single `Producer`); "no device" starts the synthetic producer and
a successful connect starts the hardware producer, but any failure of
`MidiInput::new`, `port_name`, or `connect` propagates out of
`start_midi_server`, is logged by the caller, and leaves *no* producer
running (the process stays alive; there is no synthetic fallback on connect
failure). -/
theorem c2_producer_selection :
    run_backend MidiEnv.noPorts = some Producer.synthetic ∧
    run_backend MidiEnv.connectOk = some Producer.hardware ∧
    run_backend MidiEnv.initFails = none ∧
    run_backend MidiEnv.portNameFails = none ∧
    run_backend MidiEnv.connectFails = none := by
  decide

/-- Counterexample to C3: with one pending bus event and a client close
frame, schedule the inbound task first (it observes the close and finishes),
let `handle_socket`'s `select!` return, and then let the detached outbound
task run: a send is still attempted afterwards. -/
theorem c3_counterexample :
    (session_run (session_init [RecvResult.ok (sim_note_on 60)] [SockMsg.close])
      [Lbl.recv]).recvDone = true ∧
    (session_run (session_init [RecvResult.ok (sim_note_on 60)] [SockMsg.close])
      [Lbl.recv]).sendAttempts = [] ∧
    (session_run (session_init [RecvResult.ok (sim_note_on 60)] [SockMsg.close])
      [Lbl.recv, Lbl.select, Lbl.send]).sendAttempts = [sim_note_on 60] := by
  decide

/-- Helper: a run of consecutive send steps forwards every pending `Ok` bus
event, appending to the attempt log, regardless of the other flags. -/
theorem session_send_steps (ms : List MidiMessage) (sock : List SockMsg)
    (rd sr : Bool) (acc : List MidiMessage) :
    session_run ⟨ms.map RecvResult.ok, sock, false, rd, sr, acc⟩
      (List.replicate ms.length Lbl.send) =
    ⟨[], sock, false, rd, sr, acc ++ ms⟩ := by
  induction ms generalizing acc with
  | nil => simp [session_run]
  | cons m ms ih =>
    simp only [List.map_cons, List.length_cons, List.replicate_succ, session_run,
      session_step]
    simpa using ih (acc ++ [m])

/-- C3 as amended: whichever duty finishes first makes `handle_socket`'s
`select!` return, but the losing task is only *detached* (dropping a tokio
`JoinHandle` does not abort the task), not cancelled: after the inbound duty
observes the client's close frame and `handle_socket` returns, the outbound
task keeps running and still attempts to send every remaining bus event. -/
theorem c3_loser_not_cancelled :
    ∀ ms : List MidiMessage,
      (session_run (session_init (ms.map RecvResult.ok) [SockMsg.close])
        (Lbl.recv :: Lbl.select :: List.replicate ms.length Lbl.send)).recvDone = true ∧
      (session_run (session_init (ms.map RecvResult.ok) [SockMsg.close])
        (Lbl.recv :: Lbl.select :: List.replicate ms.length Lbl.send)).selectReturned = true ∧
      (session_run (session_init (ms.map RecvResult.ok) [SockMsg.close])
        (Lbl.recv :: Lbl.select :: List.replicate ms.length Lbl.send)).sendAttempts = ms := by
  intro ms
  have h1 : session_step (session_init (ms.map RecvResult.ok) [SockMsg.close]) Lbl.recv =
      ⟨ms.map RecvResult.ok, [], false, true, false, []⟩ := by
    simp [session_init, session_step]
  have h2 : session_step (⟨ms.map RecvResult.ok, [], false, true, false, []⟩ : SessionState)
      Lbl.select = ⟨ms.map RecvResult.ok, [], false, true, true, []⟩ := by
    simp [session_step]
  simp only [session_run, h1, h2, session_send_steps]
  simp

/-! ## Claims about the synthetic producer -/

/-- Helper: the event published at position `2*k` (resp. `2*k+1`) of the
synthetic loop started at counter `start` is NoteOn (resp. NoteOff) of
`scale[(start + k) % 8]`. -/
theorem simulate_midi_events_get (start iters k : Nat) (h : k < iters) :
    (simulate_midi_events start iters).get? (2 * k) =
      some (sim_note_on (c_major_scale.getD ((start + k) % 8) 0)) ∧
    (simulate_midi_events start iters).get? (2 * k + 1) =
      some (sim_note_off (c_major_scale.getD ((start + k) % 8) 0)) := by
  induction k generalizing start iters with
  | zero =>
    cases iters with
    | zero => omega
    | succ i =>
      simp [simulate_midi_events, c_major_scale]
  | succ k ih =>
    cases iters with
    | zero => omega
    | succ i =>
      have hk : k < i := by omega
      have := ih (start + 1) i hk
      have e1 : 2 * (k + 1) = (2 * k) + 1 + 1 := by ring
      have e3 : start + (k + 1) = (start + 1) + k := by ring
      rw [e1, e3]
      simpa [simulate_midi_events] using this

/-- C8: the synthetic producer cycles through the fixed scale
`[60,62,64,65,67,69,71,72]`: event `2k` is `NoteOn(scale[k % 8], 64)`,
event `2k+1` is `NoteOff(scale[k % 8], 0)`, and the first six events are
NoteOn/NoteOff of 60, 62, 64 in order. -/
theorem c8_synthetic_sequence :
    simulate_midi_events 0 3 = [sim_note_on 60, sim_note_off 60, sim_note_on 62,
      sim_note_off 62, sim_note_on 64, sim_note_off 64] ∧
    (∀ k iters : Nat, k < iters →
      (simulate_midi_events 0 iters).get? (2 * k) =
        some (sim_note_on (c_major_scale.getD (k % 8) 0)) ∧
      (simulate_midi_events 0 iters).get? (2 * k + 1) =
        some (sim_note_off (c_major_scale.getD (k % 8) 0))) := by
  constructor
  · decide
  · intro k iters h
    simpa using simulate_midi_events_get 0 iters k h

/-- Witness for C8: the fifth and sixth published events. -/
theorem c8_witness :
    (simulate_midi_events 0 3).get? 4 = some (sim_note_on 64) ∧
    (simulate_midi_events 0 3).get? 5 = some (sim_note_off 64) := by
  have h := c8_synthetic_sequence.2 2 3 (by decide)
  exact ⟨h.1, h.2⟩

/-! ## The wire-schema round trip (C9) -/

/-- A decimal digit character decodes to its value. -/
theorem digitVal_digitChar : ∀ d : Nat, d < 10 → digitVal (Nat.digitChar d) = some d := by
  decide

/-- A lowercase hex digit character decodes to its value. -/
theorem hexVal_hexDigitChar : ∀ d : Nat, d < 16 → hexVal (hexDigitChar d) = some d := by
  decide

/-- The greedy digit reader consumes exactly a rendered digit block. -/
theorem parseDigits_append (ds : List Nat) (rest : List Char)
    (hds : ∀ d ∈ ds, d < 10) (hrest : startsWithDigit rest = false) :
    parseDigits (ds.map Nat.digitChar ++ rest) = (ds, rest) := by
  induction ds with
  | nil =>
    cases rest with
    | nil => rfl
    | cons c t =>
      have hnone : digitVal c = none := by
        simpa [startsWithDigit, Option.isSome_iff_exists] using hrest
      simp [parseDigits, hnone]
  | cons d ds ih =>
    have hd : d < 10 := hds d (List.mem_cons_self d ds)
    have ih2 := ih fun e he => hds e (List.mem_cons_of_mem d he)
    simp [parseDigits, digitVal_digitChar d hd, ih2]

/-- Folding digits most-significant-first computes the number. -/
theorem foldl_digits (L : List Nat) (a : Nat) :
    L.foldl (fun x d => 10 * x + d) a = Nat.ofDigits 10 L.reverse + a * 10 ^ L.length := by
  induction L generalizing a with
  | nil => simp
  | cons d L ih =>
    simp only [List.foldl_cons, ih, List.reverse_cons, Nat.ofDigits_append,
      Nat.ofDigits_singleton, List.length_reverse, List.length_cons]
    ring

/-- The decimal number parser consumes exactly a rendered number. -/
theorem parseNat_renderNat (n : Nat) (rest : List Char)
    (hrest : startsWithDigit rest = false) :
    parseNat (renderNat n ++ rest) = some (n, rest) := by
  by_cases h0 : n = 0
  · subst h0
    have h : parseDigits (([0].map Nat.digitChar) ++ rest) = ([0], rest) :=
      parseDigits_append [0] rest (by decide) hrest
    have e0 : Nat.digitChar 0 = '0' := by decide
    simp only [List.map_cons, List.map_nil, e0, List.singleton_append] at h
    simp [renderNat, parseNat, h]
  · have hds : ∀ d ∈ (Nat.digits 10 n).reverse, d < 10 := fun d hd =>
      Nat.digits_lt_base (by norm_num) (List.mem_reverse.mp hd)
    have h := parseDigits_append ((Nat.digits 10 n).reverse) rest hds hrest
    rcases e : (Nat.digits 10 n).reverse with _ | ⟨d, tl⟩
    · exact absurd (List.reverse_eq_nil_iff.mp e)
        (Nat.digits_ne_nil_iff_ne_zero.mpr h0)
    · rw [e] at h
      simp only [renderNat, if_neg h0, e]
      simp only [parseNat, h]
      have : (d :: tl).foldl (fun x d => 10 * x + d) 0 = n := by
        rw [foldl_digits]
        have : (d :: tl).reverse = Nat.digits 10 n := by
          rw [← e, List.reverse_reverse]
        rw [this, Nat.ofDigits_digits]
        simp
      rw [this]

/-- A rendered number is never empty. -/
theorem renderNat_ne_nil (n : Nat) : renderNat n ≠ [] := by
  by_cases h0 : n = 0
  · subst h0; decide
  · rw [renderNat, if_neg h0]
    simp [List.map_eq_nil_iff, List.reverse_eq_nil_iff, Nat.digits_ne_nil_iff_ne_zero.mpr h0]

/-- A rendered number starts with a decimal digit. -/
theorem renderNat_head_digit (n : Nat) : startsWithDigit (renderNat n) = true := by
  by_cases h0 : n = 0
  · subst h0; decide
  · rw [renderNat, if_neg h0]
    rcases e : (Nat.digits 10 n).reverse with _ | ⟨d, tl⟩
    · exact absurd (List.reverse_eq_nil_iff.mp e) (Nat.digits_ne_nil_iff_ne_zero.mpr h0)
    · have hd : d < 10 := Nat.digits_lt_base (by norm_num)
        (List.mem_reverse.mp (e ▸ List.mem_cons_self d tl))
      simp [startsWithDigit, e, digitVal_digitChar d hd]

/-- A character with a digit value is not `"` and not `n`. -/
theorem digitVal_head_ne (c : Char) (h : (digitVal c).isSome) : c ≠ '"' ∧ c ≠ 'n' := by
  constructor <;> rintro rfl <;> revert h <;> decide

/-- Unescaping consumes the escape sequence of one character and yields that
character. -/
theorem parseStringBody_escapeChar (c : Char) (t : List Char) :
    parseStringBody (escapeChar c ++ t) =
      (parseStringBody t).map fun p => (c :: p.1, p.2) := by
  by_cases h1 : c = '"'
  · subst h1
    rw [escapeChar, if_pos rfl]
    rw [List.cons_append, List.cons_append, parseStringBody.eq_def]
    simp [escCharOf]
  by_cases h2 : c = '\\'
  · subst h2
    rw [escapeChar, if_neg h1, if_pos rfl]
    rw [List.cons_append, List.cons_append, parseStringBody.eq_def]
    simp [escCharOf]
  by_cases h3 : c = Char.ofNat 8
  · subst h3
    rw [escapeChar, if_neg h1, if_neg h2, if_pos rfl]
    rw [List.cons_append, List.cons_append, parseStringBody.eq_def]
    simp [escCharOf]
  by_cases h4 : c = Char.ofNat 9
  · subst h4
    rw [escapeChar, if_neg h1, if_neg h2, if_neg h3, if_pos rfl]
    rw [List.cons_append, List.cons_append, parseStringBody.eq_def]
    simp [escCharOf]
  by_cases h5 : c = Char.ofNat 10
  · subst h5
    rw [escapeChar, if_neg h1, if_neg h2, if_neg h3, if_neg h4, if_pos rfl]
    rw [List.cons_append, List.cons_append, parseStringBody.eq_def]
    simp [escCharOf]
  by_cases h6 : c = Char.ofNat 12
  · subst h6
    rw [escapeChar, if_neg h1, if_neg h2, if_neg h3, if_neg h4, if_neg h5, if_pos rfl]
    rw [List.cons_append, List.cons_append, parseStringBody.eq_def]
    simp [escCharOf]
  by_cases h7 : c = Char.ofNat 13
  · subst h7
    rw [escapeChar, if_neg h1, if_neg h2, if_neg h3, if_neg h4, if_neg h5, if_neg h6,
      if_pos rfl]
    rw [List.cons_append, List.cons_append, parseStringBody.eq_def]
    simp [escCharOf]
  by_cases h8 : c.toNat < 32
  · have hhi : c.toNat / 16 < 16 := by omega
    have hlo : c.toNat % 16 < 16 := Nat.mod_lt _ (by norm_num)
    have echar : Char.ofNat (16 * (c.toNat / 16) + c.toNat % 16) = c := by
      have e : 16 * (c.toNat / 16) + c.toNat % 16 = c.toNat := by
        omega
      rw [e, Char.ofNat_toNat]
    rw [escapeChar, if_neg h1, if_neg h2, if_neg h3, if_neg h4, if_neg h5, if_neg h6,
      if_neg h7, if_pos h8]
    simp only [List.cons_append]
    rw [parseStringBody.eq_def]
    simp only [List.cons.injEq, reduceIte]
    rw [show hexVal '0' = some 0 from by decide,
      hexVal_hexDigitChar _ hhi, hexVal_hexDigitChar _ hlo]
    simp [echar]
  · rw [escapeChar, if_neg h1, if_neg h2, if_neg h3, if_neg h4, if_neg h5, if_neg h6,
      if_neg h7, if_neg h8]
    rw [List.singleton_append, parseStringBody.eq_def]
    simp [h1, h2]

/-- Unescaping consumes an entire escaped string up to the closing quote. -/
theorem parseStringBody_escapeChars (s t : List Char) :
    parseStringBody (escapeChars s ++ '"' :: t) = some (s, t) := by
  induction s with
  | nil =>
    rw [escapeChars, List.nil_append, parseStringBody.eq_def]
    simp
  | cons c cs ih =>
    rw [escapeChars, List.append_assoc, parseStringBody_escapeChar, ih]
    rfl

/-- The value parser consumes exactly a rendered value (when what follows
does not start with a digit, so a number parse cannot overrun). -/
theorem parseJVal_render (v : JVal) (rest : List Char)
    (hrest : startsWithDigit rest = false) :
    parseJVal (renderJVal v ++ rest) = some (v, rest) := by
  cases v with
  | jnull =>
    show parseJVal ('n' :: 'u' :: 'l' :: 'l' :: rest) = some (JVal.jnull, rest)
    rfl
  | jstr s =>
    rw [renderJVal, renderJString]
    rw [List.cons_append, List.append_assoc, List.singleton_append]
    show (parseStringBody (escapeChars s ++ '"' :: rest)).map
      (fun p => (JVal.jstr p.1, p.2)) = some (JVal.jstr s, rest)
    rw [parseStringBody_escapeChars]
    rfl
  | jnum n =>
    rcases e : renderNat n with _ | ⟨c, cs⟩
    · exact absurd e (renderNat_ne_nil n)
    · have hd : (digitVal c).isSome := by
        have h := renderNat_head_digit n
        rw [e] at h
        simpa [startsWithDigit] using h
      obtain ⟨hne1, hne2⟩ := digitVal_head_ne c hd
      have hp := parseNat_renderNat n rest hrest
      rw [e, List.cons_append] at hp
      rw [renderJVal, e, List.cons_append]
      simp only [parseJVal]
      rw [if_neg hne1, if_neg hne2, hp]

/-- The member parser consumes exactly a rendered member followed by a
comma. -/
theorem parseMember_render_more (k : List Char) (v : JVal) (rest : List Char) :
    parseMember (renderMember k v ++ ',' :: rest) = some ((k, v), rest, true) := by
  rw [renderMember, List.append_assoc, List.cons_append]
  rw [renderJString, List.cons_append, List.append_assoc, List.singleton_append]
  rw [parseMember]
  have hs : parseStringBody (escapeChars k ++ '"' :: (':' :: (renderJVal v ++ ',' :: rest))) =
      some (k, ':' :: (renderJVal v ++ ',' :: rest)) := parseStringBody_escapeChars _ _
  have hv : parseJVal (renderJVal v ++ ',' :: rest) = some (v, ',' :: rest) :=
    parseJVal_render v (',' :: rest) rfl
  simp [hs, hv]

/-- The member parser consumes exactly a rendered member followed by the
closing brace. -/
theorem parseMember_render_last (k : List Char) (v : JVal) (rest : List Char) :
    parseMember (renderMember k v ++ '}' :: rest) = some ((k, v), rest, false) := by
  rw [renderMember, List.append_assoc, List.cons_append]
  rw [renderJString, List.cons_append, List.append_assoc, List.singleton_append]
  rw [parseMember]
  have hs : parseStringBody (escapeChars k ++ '"' :: (':' :: (renderJVal v ++ '}' :: rest))) =
      some (k, ':' :: (renderJVal v ++ '}' :: rest)) := parseStringBody_escapeChars _ _
  have hv : parseJVal (renderJVal v ++ '}' :: rest) = some (v, '}' :: rest) :=
    parseJVal_render v ('}' :: rest) rfl
  simp [hs, hv]

/-- The member-list parser consumes exactly a rendered non-empty member
list, producing the folded accumulator, for any sufficient fuel. -/
theorem parseMembers_render (kvs : List (List Char × JVal)) (acc accF : MidiAcc)
    (fuel : Nat) (hne : kvs ≠ []) (hv : visitFold acc kvs = some accF) :
    parseMembers (kvs.length + fuel) acc (renderMembersList kvs) = some (accF, []) := by
  induction kvs generalizing acc fuel with
  | nil => exact absurd rfl hne
  | cons kv rest ih =>
    obtain ⟨k, v⟩ := kv
    rw [visitFold] at hv
    rcases hacc : visitMember acc k v with _ | acc2
    · rw [hacc] at hv
      exact absurd hv (by simp)
    · rw [hacc] at hv
      cases rest with
      | nil =>
        simp only [visitFold, Option.some.injEq] at hv
        subst hv
        have hlen : ([(k, v)] : List (List Char × JVal)).length + fuel = fuel + 1 := by
          simp [Nat.add_comm]
        rw [hlen]
        show parseMembers (fuel + 1) acc (renderMember k v ++ '}' :: []) = some (acc2, [])
        rw [parseMembers]
        simp [parseMember_render_last k v [], hacc]
      | cons kv2 rest2 =>
        have hlen : ((k, v) :: kv2 :: rest2).length + fuel
            = ((kv2 :: rest2).length + fuel) + 1 := by
          simp only [List.length_cons]
          omega
        rw [hlen]
        show parseMembers (((kv2 :: rest2).length + fuel) + 1) acc
          (renderMember k v ++ ',' :: renderMembersList (kv2 :: rest2)) = some (accF, [])
        rw [parseMembers]
        simp only [parseMember_render_more k v (renderMembersList (kv2 :: rest2)), hacc]
        simpa using ih acc2 fuel (by simp) hv

/-- Reading back the JSON value of a `u8` option recovers it. -/
theorem jToOptU8_jOfOptU8 (x : Option Nat) (h : ∀ n, x = some n → n ≤ 255) :
    jToOptU8 (jOfOptU8 x) = some x := by
  cases x with
  | none => rfl
  | some n => simp [jOfOptU8, jToOptU8, h n rfl]

/-- Visiting the five rendered members in order fills the accumulator with
exactly the message's fields. -/
theorem visitFold_midiMembers (m : MidiMessage)
    (hn : ∀ n, m.note = some n → n ≤ 255)
    (hv : ∀ n, m.velocity = some n → n ≤ 255)
    (hc : ∀ n, m.control = some n → n ≤ 255)
    (hw : ∀ n, m.value = some n → n ≤ 255) :
    visitFold ⟨none, none, none, none, none⟩ (midiMembers m) =
      some ⟨some m.message_type.data, some m.note, some m.velocity, some m.control,
        some m.value⟩ := by
  have e1 : visitMember ⟨none, none, none, none, none⟩ "message_type".data
      (JVal.jstr m.message_type.data)
      = some ⟨some m.message_type.data, none, none, none, none⟩ := by
    simp [visitMember]
  have e2 : visitMember ⟨some m.message_type.data, none, none, none, none⟩ "note".data
      (jOfOptU8 m.note)
      = some ⟨some m.message_type.data, some m.note, none, none, none⟩ := by
    simp [visitMember, show ¬("note".data = "message_type".data) from by decide,
      jToOptU8_jOfOptU8 m.note hn]
  have e3 : visitMember ⟨some m.message_type.data, some m.note, none, none, none⟩
      "velocity".data (jOfOptU8 m.velocity)
      = some ⟨some m.message_type.data, some m.note, some m.velocity, none, none⟩ := by
    simp [visitMember, show ¬("velocity".data = "message_type".data) from by decide,
      show ¬("velocity".data = "note".data) from by decide,
      jToOptU8_jOfOptU8 m.velocity hv]
  have e4 : visitMember ⟨some m.message_type.data, some m.note, some m.velocity, none, none⟩
      "control".data (jOfOptU8 m.control)
      = some ⟨some m.message_type.data, some m.note, some m.velocity, some m.control, none⟩ := by
    simp [visitMember, show ¬("control".data = "message_type".data) from by decide,
      show ¬("control".data = "note".data) from by decide,
      show ¬("control".data = "velocity".data) from by decide,
      jToOptU8_jOfOptU8 m.control hc]
  have e5 : visitMember
      ⟨some m.message_type.data, some m.note, some m.velocity, some m.control, none⟩
      "value".data (jOfOptU8 m.value)
      = some ⟨some m.message_type.data, some m.note, some m.velocity, some m.control,
          some m.value⟩ := by
    simp [visitMember, show ¬("value".data = "message_type".data) from by decide,
      show ¬("value".data = "note".data) from by decide,
      show ¬("value".data = "velocity".data) from by decide,
      show ¬("value".data = "control".data) from by decide,
      jToOptU8_jOfOptU8 m.value hw]
  simp only [midiMembers, visitFold, e1, e2, e3, e4, e5]

/-- A rendered member list is at least as long as the member count. -/
theorem renderMembersList_length (kvs : List (List Char × JVal)) :
    kvs.length ≤ (renderMembersList kvs).length := by
  induction kvs with
  | nil => simp [renderMembersList]
  | cons kv rest ih =>
    obtain ⟨k, v⟩ := kv
    cases rest with
    | nil =>
      show 1 ≤ (renderMember k v ++ ['}']).length
      simp
    | cons kv2 rest2 =>
      show (kv2 :: rest2).length + 1
        ≤ (renderMember k v ++ ',' :: renderMembersList (kv2 :: rest2)).length
      simp only [List.length_append, List.length_cons] at ih ⊢
      omega

/-- A rendered non-empty member list starts with a quote. -/
theorem renderMembersList_head (kvs : List (List Char × JVal)) (h : kvs ≠ []) :
    ∃ t, renderMembersList kvs = '"' :: t := by
  match kvs with
  | [(k, v)] =>
    refine ⟨escapeChars k ++ '"' :: (':' :: (renderJVal v ++ ['}'])), ?_⟩
    show renderMember k v ++ ['}'] = _
    simp [renderMember, renderJString]
  | (k, v) :: kv2 :: rest2 =>
    refine ⟨escapeChars k ++ '"' ::
      (':' :: (renderJVal v ++ ',' :: renderMembersList (kv2 :: rest2))), ?_⟩
    show renderMember k v ++ ',' :: renderMembersList (kv2 :: rest2) = _
    simp [renderMember, renderJString]

/-- C9: serializing any event to the wire JSON schema and parsing the text
back yields the original event (fields are bytes, hence `≤ 255`). -/
theorem c9_round_trip (m : MidiMessage)
    (hn : ∀ n, m.note = some n → n ≤ 255)
    (hv : ∀ n, m.velocity = some n → n ≤ 255)
    (hc : ∀ n, m.control = some n → n ≤ 255)
    (hw : ∀ n, m.value = some n → n ≤ 255) :
    parse_midi_message (render_midi_message m) = some m := by
  have hfold := visitFold_midiMembers m hn hv hc hw
  have hlen := renderMembersList_length (midiMembers m)
  obtain ⟨fuel, hfuel⟩ : ∃ fuel,
      (renderMembersList (midiMembers m)).length = (midiMembers m).length + fuel :=
    ⟨(renderMembersList (midiMembers m)).length - (midiMembers m).length, by omega⟩
  have hparse := parseMembers_render (midiMembers m) ⟨none, none, none, none, none⟩
    ⟨some m.message_type.data, some m.note, some m.velocity, some m.control, some m.value⟩
    fuel (by simp [midiMembers]) hfold
  obtain ⟨t, ht⟩ := renderMembersList_head (midiMembers m) (by simp [midiMembers])
  rw [ht] at hparse hfuel
  rw [render_midi_message, ht]
  simp only [parse_midi_message, List.length_cons]
  have hlen2 : t.length + 1 = (midiMembers m).length + fuel := by
    simpa using hfuel
  rw [hlen2, hparse]
  obtain ⟨⟨mtd⟩, no, ve, co, va⟩ := m
  simp [finishAcc]

/-- Witness for C9 at a concrete event. -/
theorem c9_witness :
    parse_midi_message (render_midi_message ⟨"NoteOn", some 60, some 64, none, none⟩)
      = some ⟨"NoteOn", some 60, some 64, none, none⟩ :=
  c9_round_trip ⟨"NoteOn", some 60, some 64, none, none⟩
    (by intro n h; cases h; decide) (by intro n h; cases h; decide)
    (by intro n h; cases h) (by intro n h; cases h)
